import Mathlib

/-!
Verification development for the crawl repository (ingest/index/retrieve
pipeline over a Supabase-backed code-chunk store).

Strings from the Python sources are embedded as Lean String or as List Char
(for the splitting and parsing functions, which work character by character).
External provider calls (OpenAI chat/embeddings, Supabase reads) are modelled
by passing their outcome as an explicit argument of type Except String _,
where an error value stands for a raised exception carrying its message.
-/

/-- Leftmost split of a character list at the first occurrence of the single
separator character c, mirroring the first component split of the Python call
s.split(sep, maxsplit): returns the part before the first c and the part after
it, or none when c does not occur. -/
def splitFirstChar (c : Char) : List Char → Option (List Char × List Char)
  | [] => none
  | x :: xs =>
    if x = c then some ([], xs)
    else
      match splitFirstChar c xs with
      | none => none
      | some (a, b) => some (x :: a, b)

/-- Leftmost split at the first occurrence of a multi-character literal
pattern: the part before the match and the part after the matched text. Used
to model re.split with a pattern that contains no regex metacharacters. -/
def splitFirstSub (pat : List Char) : List Char → Option (List Char × List Char)
  | [] => none
  | x :: xs =>
    if pat.isPrefixOf (x :: xs) then some ([], (x :: xs).drop pat.length)
    else
      match splitFirstSub pat xs with
      | none => none
      | some (a, b) => some (x :: a, b)

/-- Fuel-driven repeated splitting; with fuel at least the length of the input
and a nonempty pattern this computes every split piece, keeping empty pieces
exactly as re.split does. -/
def splitAllFuel (pat : List Char) : Nat → List Char → List (List Char)
  | 0, s => [s]
  | Nat.succ fuel, s =>
    match splitFirstSub pat s with
    | none => [s]
    | some (a, b) => a :: splitAllFuel pat fuel b

/-- Model of re.split(pat, s) for a literal (metacharacter-free) pattern:
the list of pieces between non-overlapping leftmost occurrences of pat. -/
def splitAll (pat s : List Char) : List (List Char) :=
  splitAllFuel pat (s.length + 1) s

/-- Model of the Python str.lstrip(chars) call: drop leading characters that
belong to the given character set. -/
def pyLstrip (cs : List Char) (s : List Char) : List Char :=
  s.dropWhile (fun c => cs.contains c)

/-- Characters treated as whitespace by Python str.strip() (ASCII subset). -/
def isPySpace (c : Char) : Bool :=
  c == ' ' || c == '\t' || c == '\n' || c == '\r' || c == '\x0b' || c == '\x0c'

/-- Model of Python str.strip(): remove leading and trailing whitespace. -/
def pyStrip (s : String) : String :=
  String.mk (((s.toList.dropWhile isPySpace).reverse.dropWhile isPySpace).reverse)

/-- Path components of a POSIX path as pathlib keeps them: split on the slash
and drop empty components and single-dot components. -/
def pathParts (s : List Char) : List (List Char) :=
  (splitAll ['/'] s).filter (fun p => !p.isEmpty && !(p == ['.']))

/-- Model of str(pathlib.PurePosixPath(s)) for ordinary paths: the kept
components joined by slashes, with a leading slash for absolute paths and a
single dot for an empty relative path. -/
def pathStr (s : List Char) : List Char :=
  let abs := s.head? == some '/'
  let parts := pathParts s
  if parts.isEmpty then (if abs then ['/'] else ['.'])
  else (if abs then ['/'] else []) ++ List.intercalate ['/'] parts

/-- Model of pathlib PurePosixPath.name: the final path component. -/
def pathName (s : List Char) : List Char :=
  (pathParts s).getLastD []

/-- Index of the last dot in a name, mirroring Python str.rfind. -/
def rfindDot (name : List Char) : Option Nat :=
  match name.reverse.findIdx? (fun c => c == '.') with
  | none => none
  | some j => some (name.length - 1 - j)

/-- Model of pathlib PurePosixPath.stem applied to a file name: the name cut
at its last dot when that dot is neither the first nor the last character,
otherwise the whole name, exactly as CPython computes stem from rfind. -/
def stemOf (name : List Char) : List Char :=
  match rfindDot name with
  | none => name
  | some i => if 0 < i ∧ i < name.length - 1 then name.take i else name

namespace main

/-- Outcome of the nested clean_chunk function in src/atom/main.py.
parsed carries the returned (file_name, str(file_path), file_content) triple;
degenerate is the except ValueError branch, which logs and returns the triple
with empty name and path and the whole block as content; raised records that
an exception other than ValueError escaped the function (the IndexError from
file_content.split of two newlines when fewer than three pieces exist, which
the except ValueError clause does not catch). -/
inductive CleanResult where
  | parsed (name : List Char) (path : List Char) (content : List Char)
  | degenerate (raw : List Char)
  | raised
deriving DecidableEq

/-- Model of clean_chunk in src/atom/main.py. The Python body unpacks
chunk.split of one newline into header and rest (ValueError when the chunk has
no newline, caught and turned into the degenerate triple), builds the path
from the header with lstrip of hash and space characters, then takes
rest.split of a newline with maxsplit 2 at index 2, which raises an uncaught
IndexError when rest holds fewer than two newlines. The Python code computes
the path and the stem before the content split; the model computes the same
pure values in the success branch, which is observationally identical because
the path construction cannot raise. -/
def clean_chunk (chunk : List Char) : CleanResult :=
  match splitFirstChar '\n' chunk with
  | none => CleanResult.degenerate chunk
  | some (file_path_str, rest) =>
    match splitFirstChar '\n' rest with
    | none => CleanResult.raised
    | some (_, rest2) =>
      match splitFirstChar '\n' rest2 with
      | none => CleanResult.raised
      | some (_, file_content) =>
        CleanResult.parsed (stemOf (pathName (pyLstrip ['#', ' '] file_path_str)))
          (pathStr (pyLstrip ['#', ' '] file_path_str)) file_content

/-- The triple a CleanResult contributes to the chunk list, or none when the
cleaning raised: parsed and degenerate both yield a (name, path, content)
triple, exactly the two return statements of clean_chunk. -/
def cleanTriple : CleanResult → Option (List Char × List Char × List Char)
  | CleanResult.parsed n p c => some (n, p, c)
  | CleanResult.degenerate raw => some ([], [], raw)
  | CleanResult.raised => none

/-- The two boundary patterns passed to RegexChunking in chunk_code:
four backticks followed by two newlines, then three backticks followed by two
newlines. Both are literal patterns (no regex metacharacters). -/
def boundaryPatterns : List (List Char) :=
  [("````\n\n").toList, ("```\n\n").toList]

/-- Model of crawl4ai RegexChunking.chunk (external library, semantics from
its source): start with the whole text as a single paragraph and, for each
pattern in order, re.split every current paragraph and concatenate the
resulting pieces. -/
def regexChunk (patterns : List (List Char)) (text : List Char) : List (List Char) :=
  patterns.foldl (fun paras pat => paras.flatMap (fun p => splitAll pat p)) [text]

/-- Model of the code_blocks value in chunk_code: the chunker output with its
first element dropped (the Python slice from index 1). -/
def code_blocks (content : List Char) : List (List Char) :=
  (regexChunk boundaryPatterns content).drop 1

/-- Running clean_chunk over every block in order, aborting at the first block
whose cleaning raises, as forcing the lazy map inside the task-list
comprehension of chunk_code does. -/
def cleanAll : List (List Char) → Except Unit (List (List Char × List Char × List Char))
  | [] => Except.ok []
  | b :: bs =>
    match cleanTriple (clean_chunk b) with
    | none => Except.error ()
    | some t =>
      match cleanAll bs with
      | Except.error e => Except.error e
      | Except.ok ts => Except.ok (t :: ts)

/-- Model of the splitting half of chunk_code in src/atom/main.py: the cleaned
chunk triples paired with their enumeration index, which is the ordinal idx
that enumerate assigns when the task list is built; an error records that the
comprehension raised. -/
def chunk_code_model (content : List Char) :
    Except Unit (List (Nat × (List Char × List Char × List Char))) :=
  match cleanAll (code_blocks content) with
  | Except.error e => Except.error e
  | Except.ok ts => Except.ok ts.enum

/-- The (entity name, ordinal) pairs the pipeline produces for a document, or
none when chunk_code raises. -/
def pipelineNamesOrdinals (content : List Char) : Option (List (List Char × Nat)) :=
  match chunk_code_model content with
  | Except.error _ => none
  | Except.ok ts => some (ts.map (fun t => (t.2.1, t.1)))

/-- Model of get_summary in src/atom/main.py over the provider outcome: an
error value is a raised exception from the chat completion call or from
processing its response (the except Exception branch returns the fixed string
built by an f-string without placeholders); ok none is a falsy response or an
empty choices list (the else branch returns the empty string after logging);
ok with a string is the message content, which the code strips. -/
def get_summary (outcome : Except String (Option String)) : String :=
  match outcome with
  | Except.error _ => "Error summarizing content"
  | Except.ok none => ""
  | Except.ok (some t) => pyStrip t

/-- Model of get_embedding in src/atom/main.py over the provider outcome: the
except branch returns the Python list literal zero repeated 1536 times, the
success branch returns the embedding of the first datum. Embedding values are
modelled as integers; only lengths and identity of the vectors matter here. -/
def get_embedding (outcome : Except String (List Int)) : List Int :=
  match outcome with
  | Except.error _ => List.replicate 1536 0
  | Except.ok v => v

/-- Metadata dictionary stamped by process_chunks in src/atom/main.py. -/
structure ChunkMetadata where
  source : String
  chunk_size : Nat
  created_at : String
  file_path : String
deriving DecidableEq

/-- The ProcessedChunk dataclass of src/atom/main.py; embedding values are
modelled as integers. -/
structure ProcessedChunk where
  name : String
  summary : String
  chunk_index : Nat
  content : String
  embedding : List Int
  metadata : ChunkMetadata
deriving DecidableEq

/-- Events observable on the provider boundary while one chunk is enriched:
issuing the summary request, its completion, issuing the embedding request,
and its completion. Awaiting a coroutine runs it from its call to its
completion before the awaiting coroutine resumes, so the order of these events
is fully determined by the await structure of process_chunks. -/
inductive ProviderEvent where
  | summaryCall
  | summaryRet
  | embedCall
  | embedRet
deriving DecidableEq

/-- The statement await get_summary(content) in process_chunks: the summary
request is issued and runs to completion (its exceptions are handled inside
get_summary) before control returns. -/
def get_summary_traced (outcome : Except String (Option String)) :
    List ProviderEvent × String :=
  ([ProviderEvent.summaryCall, ProviderEvent.summaryRet], get_summary outcome)

/-- The statement await get_embedding(content) in process_chunks, with the
same convention. -/
def get_embedding_traced (outcome : Except String (List Int)) :
    List ProviderEvent × List Int :=
  ([ProviderEvent.embedCall, ProviderEvent.embedRet], get_embedding outcome)

/-- Model of process_chunks in src/atom/main.py together with the provider
event trace it generates. The body is summary = await get_summary(content)
followed by embedding = await get_embedding(content), so the trace of the
first await precedes the trace of the second; summaryOutcome and
embeddingOutcome are the outcomes of the two provider calls and now is the
timestamp datetime.now produces. -/
def process_chunks (summaryOutcome : Except String (Option String))
    (embeddingOutcome : Except String (List Int))
    (name : String) (file_path : String) (content : String) (idx : Nat)
    (now : String) : List ProviderEvent × ProcessedChunk :=
  let s := get_summary_traced summaryOutcome
  let e := get_embedding_traced embeddingOutcome
  (s.1 ++ e.1,
   { name := name
     summary := s.2
     chunk_index := idx
     content := content
     embedding := e.2
     metadata :=
      { source := "swiftui-atom-properties"
        chunk_size := content.length
        created_at := now
        file_path := file_path } })

end main

namespace agent

/-- One stored row of the code_pages table as the tools in src/atom/agent.py
read it: the columns they select plus the two metadata fields they filter or
display. The metadata JSON operator lookups metadata->>source and
metadata->>file_path are modelled as the flat fields source and file_path. -/
structure Row where
  type_name : String
  content : String
  chunk_idx : Nat
  source : String
  file_path : String
deriving DecidableEq

/-- Model of get_embedding in src/atom/agent.py over the provider outcome: the
except branch returns the Python expression of an empty list literal
multiplied by 1536, which is the empty list. -/
def get_embedding (outcome : Except String (List Int)) : List Int :=
  match outcome with
  | Except.error _ => []
  | Except.ok v => v

/-- The value passed as query_embedding in the rpc parameters of get_code in
src/atom/agent.py: the call get_embedding(user_query, ...) appears without an
await, so the bound value is the coroutine object itself, never an embedding
vector. -/
inductive EmbeddingArg where
  | coroutine
  | vector (v : List Int)
deriving DecidableEq

/-- The argument record of the supabase rpc call issued by get_code. -/
structure RpcArgs where
  fn : String
  query_embedding : EmbeddingArg
  match_count : Nat
  filter_source : String
deriving DecidableEq

/-- Model of the rpc call site in get_code in src/atom/agent.py: the function
name and parameter dictionary it builds for a user query. The query embedding
argument is the un-awaited coroutine regardless of the query text. -/
def get_code_rpc_args (user_query : String) : RpcArgs :=
  { fn := "match_code_pages"
    query_embedding := EmbeddingArg.coroutine
    match_count := 5
    filter_source := "swiftui-atom-properties" }

/-- The loop body string of get_code in src/atom/agent.py, written there as a
triple-quoted string WITHOUT an f prefix: the braces and the field lookups are
literal text, so the same constant string is produced on every iteration. -/
def chunkTemplate : String :=
  "\n            \x7bsource_code[\x27type_name\x27]\x7d\n\n            \x7bsource_code[\x27content\x27]\x7d\n            "

/-- Model of the formatting loop and return of get_code in src/atom/agent.py:
for each element of the iterated collection the constant template is appended
(the loop variable is never interpolated because the template is not an
f-string), and the blocks are joined by the fixed separator. The code iterates
the response object itself rather than its data list; the iterated collection
is therefore taken as a parameter, and the produced text is independent of the
elements either way. -/
def get_code_output (items : List Row) : String :=
  String.intercalate "\n\n---\n\n" (items.map (fun _ => chunkTemplate))

/-- Stable insertion of a row into a list sorted by ascending chunk_idx,
placing the new row after existing rows with an equal or smaller index. -/
def insertByIdx (r : Row) : List Row → List Row
  | [] => [r]
  | x :: xs => if r.chunk_idx < x.chunk_idx then r :: x :: xs else x :: insertByIdx r xs

/-- Stable ascending sort by chunk_idx, modelling the order by chunk_idx
clause of the get_code_for_type query. -/
def sortByIdx : List Row → List Row
  | [] => []
  | x :: xs => insertByIdx x (sortByIdx xs)

/-- The f-string built by get_code_for_type in src/atom/agent.py from the
first returned row. -/
def renderCodeFor (fp : String) (content : String) : String :=
  "\n        File Path: " ++ fp ++ "\n        ```swift\n        " ++ content ++
    "\n        ```\n        "

/-- Model of get_code_for_type in src/atom/agent.py. The store read outcome is
an error when execute raises (the except branch returns the empty string) and
otherwise the full row list of the table; the function filters rows by
type_name and by metadata source, orders them by chunk_idx ascending, and then
uses only result.data[0]. The guard if not result never fires because the
postgrest response object defines neither a bool nor a len conversion and is
always truthy, so with an empty result list the data[0] subscript raises an
IndexError that the except branch turns into the empty string, and the
message branch No code found is unreachable. -/
def get_code_for_type (store : Except String (List Row)) (type_name : String) : String :=
  match store with
  | Except.error _ => ""
  | Except.ok rows =>
    match sortByIdx (rows.filter
        (fun r => r.type_name == type_name && r.source == "swiftui-atom-properties")) with
    | [] => ""
    | r :: _ => renderCodeFor r.file_path r.content

/-- Model of get_type_names in src/atom/agent.py. The store read outcome is an
error when execute raises (the except branch returns the empty list); on
success the code takes the type_name column of the rows whose metadata source
matches the corpus label and returns sorted(set(names)), modelled as the
canonical ascending enumeration of the finite set of those names. The guard
if not result is again always false for a successful read. -/
def get_type_names (store : Except String (List Row)) : List String :=
  match store with
  | Except.error _ => []
  | Except.ok rows =>
    (((rows.filter (fun r => r.source == "swiftui-atom-properties")).map
        (fun r => r.type_name)).toFinset).sort (· ≤ ·)

end agent

/-- Whether a pattern occurs as a contiguous run inside a character list. -/
def listContains (p : List Char) : List Char → Bool
  | [] => p.isEmpty
  | c :: rest => p.isPrefixOf (c :: rest) || listContains p rest

/-- The embedding call is issued before the summary call completes in a
provider event trace; this is what truly concurrent scheduling of the two
requests for one chunk would make possible. -/
def embedBeforeSummaryDone (t : List main.ProviderEvent) : Prop :=
  t.findIdx (fun e => e == main.ProviderEvent.embedCall) <
    t.findIdx (fun e => e == main.ProviderEvent.summaryRet)

/-- Correctness of the single-character leftmost split: a successful split
decomposes the input around the first occurrence of the separator, and the
part before the separator does not contain it. -/
theorem splitFirstChar_some (c : Char) :
    ∀ (s a b : List Char), splitFirstChar c s = some (a, b) →
      s = a ++ c :: b ∧ c ∉ a := by
  intro s
  induction s with
  | nil => intro a b h; simp [splitFirstChar] at h
  | cons x xs ih =>
    intro a b h
    by_cases hx : x = c
    · simp only [splitFirstChar, if_pos hx, Option.some.injEq, Prod.mk.injEq] at h
      obtain ⟨ha, hb⟩ := h
      subst ha; subst hb
      exact ⟨by rw [hx]; rfl, by simp⟩
    · simp only [splitFirstChar, if_neg hx] at h
      cases hsp : splitFirstChar c xs with
      | none => rw [hsp] at h; simp at h
      | some pr =>
        obtain ⟨a1, b1⟩ := pr
        rw [hsp] at h
        simp only [Option.some.injEq, Prod.mk.injEq] at h
        obtain ⟨ha, hb⟩ := h
        obtain ⟨hs, hm⟩ := ih a1 b1 hsp
        subst ha; subst hb; subst hs
        refine ⟨rfl, ?_⟩
        intro hmem
        rcases List.mem_cons.mp hmem with h1 | h2
        · exact hx h1.symm
        · exact hm h2

/-- The concrete document of the splitting scenario in the spec. -/
def docC4 : List Char :=
  ("## path/A.swift\n\ncode-A\n````\n\n## path/B.swift\n\ncode-B").toList

/-- Claim C4 as stated: splitting the scenario document produces exactly two
chunks, the first named A with ordinal 0 and the second named B with
ordinal 1. -/
def claimC4 : Prop :=
  main.pipelineNamesOrdinals docC4 = some [(("A").toList, 0), (("B").toList, 1)]

/-- Rows used to exercise the retrieval tools on concrete stores. -/
def rowT0 : agent.Row :=
  { type_name := "T", content := "AAA", chunk_idx := 0,
    source := "swiftui-atom-properties", file_path := "p/T.swift" }

/-- Second chunk of the same entity, ordinal 1. -/
def rowT1 : agent.Row :=
  { type_name := "T", content := "BBB", chunk_idx := 1,
    source := "swiftui-atom-properties", file_path := "p/T.swift" }

/-- A matching row whose type name and content are distinctive markers. -/
def rowU : agent.Row :=
  { type_name := "UniqueType", content := "UNIQUE", chunk_idx := 0,
    source := "swiftui-atom-properties", file_path := "p/U.swift" }

/-- A block whose parse succeeds, used to witness the content-dropping
behaviour of clean_chunk. -/
def c10Block : List Char := ("## p/T.swift\n\n```swift\nbody").toList

/-- C1: get_code_for_type on an entity with two chunks stored with ordinals
0 and 1 (inserted in reversed order) returns only the ordinal-0 chunk
rendered, and the ordinal-1 content BBB does not occur anywhere in the
returned string, refuting the claimed concatenation of all chunks. -/
theorem c1_returns_only_first_chunk :
    agent.get_code_for_type (Except.ok [rowT1, rowT0]) "T" =
      agent.renderCodeFor "p/T.swift" "AAA" ∧
    listContains ("BBB").toList
      ((agent.get_code_for_type (Except.ok [rowT1, rowT0]) "T").toList) = false ∧
    listContains ("AAA").toList
      ((agent.get_code_for_type (Except.ok [rowT1, rowT0]) "T").toList) = true :=
  ⟨rfl, rfl, rfl⟩

/-- C2: the rpc call of get_code passes the un-awaited coroutine as the query
embedding (while match_count 5 and the source filter are as claimed), and the
formatted result for a store hit is the constant literal template: neither the
type name nor the content of the hit occurs in the output. -/
theorem c2_coroutine_and_constant_template :
    (agent.get_code_rpc_args "how to define an atom").query_embedding =
      agent.EmbeddingArg.coroutine ∧
    (agent.get_code_rpc_args "how to define an atom").match_count = 5 ∧
    (agent.get_code_rpc_args "how to define an atom").filter_source =
      "swiftui-atom-properties" ∧
    agent.get_code_output [rowU] = agent.chunkTemplate ∧
    listContains ("UNIQUE").toList ((agent.get_code_output [rowU]).toList) = false ∧
    listContains ("UniqueType").toList ((agent.get_code_output [rowU]).toList) = false :=
  ⟨rfl, rfl, rfl, rfl, rfl, rfl⟩

/-- C3: on a provider failure the ingest-side embedding function returns the
zero vector of length 1536, but the query-side embedding function returns the
empty list (the Python expression multiplies the empty list literal by 1536),
so its fallback has length 0, not 1536. -/
theorem c3_embedding_failure_lengths :
    ∀ e : String,
      main.get_embedding (Except.error e) = List.replicate 1536 0 ∧
      (main.get_embedding (Except.error e)).length = 1536 ∧
      agent.get_embedding (Except.error e) = [] ∧
      (agent.get_embedding (Except.error e)).length = 0 := by
  intro e
  refine ⟨rfl, ?_, rfl, rfl⟩
  rw [show main.get_embedding (Except.error e) = List.replicate 1536 0 from rfl]
  exact List.length_replicate 1536 0

/-- C4 counterexample: on the scenario document the pipeline does not produce
the two chunks A and B with ordinals 0 and 1; the chunker output has its
first block dropped and cleaning the remaining block raises, so the pipeline
yields no chunk list at all. -/
theorem c4_counterexample : ¬ claimC4 := by
  intro h
  unfold claimC4 at h
  rw [show main.pipelineNamesOrdinals docC4 = none from rfl] at h
  exact Option.noConfusion h

/-- C4 amended: splitting the scenario document by the boundary markers yields
the two raw blocks of A and B, chunk_code drops the first of them (the slice
from index 1 discards everything before the first boundary), and cleaning the
remaining B block raises an uncaught IndexError because only one newline
follows its header line, so chunk_code produces no chunks for this document. -/
theorem c4_first_block_dropped_then_raise :
    main.regexChunk main.boundaryPatterns docC4 =
      [("## path/A.swift\n\ncode-A\n").toList, ("## path/B.swift\n\ncode-B").toList] ∧
    main.code_blocks docC4 = [("## path/B.swift\n\ncode-B").toList] ∧
    main.clean_chunk (("## path/B.swift\n\ncode-B").toList) = main.CleanResult.raised ∧
    main.chunk_code_model docC4 = Except.error () :=
  ⟨rfl, rfl, rfl, rfl⟩

/-- C5: clean_chunk does not return a degenerate chunk on every parse
failure: a block whose text after the header line contains fewer than two
newlines makes it raise an uncaught IndexError (only ValueError is caught),
while a block without any newline is indeed kept as the degenerate triple. -/
theorem c5_clean_chunk_raises :
    main.clean_chunk (("## a.swift\ncode").toList) = main.CleanResult.raised ∧
    main.clean_chunk (("no newline here").toList) =
      main.CleanResult.degenerate (("no newline here").toList) :=
  ⟨rfl, rfl⟩

/-- C6: get_code_for_type returns the empty string both when the store read
raises and when the store holds no row for the requested type, instead of the
claimed explicit messages; the not-found message in the code is unreachable
because the response object is always truthy. -/
theorem c6_empty_string_on_failure :
    agent.get_code_for_type (Except.error "connection reset") "Atom" = "" ∧
    agent.get_code_for_type (Except.ok []) "Atom" = "" ∧
    agent.get_code_for_type (Except.ok [rowU]) "Atom" = "" :=
  ⟨rfl, rfl, rfl⟩

/-- C7: whatever exception the summary provider raises, get_summary returns
the one fixed error-marker string and never propagates the exception (the
model function is total and the marker does not depend on the failure). -/
theorem c7_summary_failure_fixed_marker :
    ∀ e : String, main.get_summary (Except.error e) = "Error summarizing content" := by
  intro e
  rfl

/-- C8 counterexample: in the provider event trace of process_chunks for a
concrete chunk (with the summary call failing), the embedding request is not
issued before the summary call completes, refuting the claimed concurrent
scheduling of the two calls. -/
theorem c8_counterexample :
    ¬ embedBeforeSummaryDone
        (main.process_chunks (Except.error "summary provider down") (Except.ok [7])
          "T" "p/T.swift" "body" 0 "2025-01-01T00:00:00+00:00").1 := by
  unfold embedBeforeSummaryDone
  decide

/-- C8 amended: for each chunk the pipeline requests the summary and the
embedding sequentially: the trace is always summary call, summary completion,
embedding call, embedding completion, for every combination of provider
outcomes, so a failure of the summary call still does not prevent the
embedding call (failures are substituted inside each call). -/
theorem c8_sequential_trace :
    ∀ (so : Except String (Option String)) (eo : Except String (List Int))
      (name fp content : String) (idx : Nat) (now : String),
      (main.process_chunks so eo name fp content idx now).1 =
        [main.ProviderEvent.summaryCall, main.ProviderEvent.summaryRet,
         main.ProviderEvent.embedCall, main.ProviderEvent.embedRet] := by
  intros
  rfl

/-- C9: for every store state (including a failed read), the list returned by
get_type_names is sorted in ascending order and free of duplicates, even when
the same entity name occurs on several rows. -/
theorem c9_type_names_sorted_nodup :
    ∀ store : Except String (List agent.Row),
      List.Sorted (· ≤ ·) (agent.get_type_names store) ∧
      (agent.get_type_names store).Nodup := by
  intro store
  cases store with
  | error e => exact ⟨List.sorted_nil, List.nodup_nil⟩
  | ok rows => exact ⟨Finset.sort_sorted _ _, Finset.sort_nodup _ _⟩

/-- C10: when clean_chunk parses a block successfully, the stored content is
obtained from the text after the header line by discarding its first two
newline-delimited segments, so the content is a strict suffix of — and never
equal to — the full text after the header line. -/
theorem c10_parsed_content_drops_two_segments :
    ∀ (chunk n p c : List Char),
      main.clean_chunk chunk = main.CleanResult.parsed n p c →
      ∃ header s0 s1,
        chunk = header ++ '\n' :: (s0 ++ '\n' :: (s1 ++ '\n' :: c)) ∧
        '\n' ∉ header ∧ '\n' ∉ s0 ∧ '\n' ∉ s1 ∧
        c ≠ s0 ++ '\n' :: (s1 ++ '\n' :: c) := by
  intro chunk n p c h
  unfold main.clean_chunk at h
  split at h
  · exact main.CleanResult.noConfusion h
  next header rest h1 =>
    split at h
    · exact main.CleanResult.noConfusion h
    next s0 rest2 h2 =>
      split at h
      · exact main.CleanResult.noConfusion h
      next s1 content h3 =>
        simp only [main.CleanResult.parsed.injEq] at h
        obtain ⟨-, -, hc⟩ := h
        obtain ⟨e1, m1⟩ := splitFirstChar_some '\n' chunk header rest h1
        obtain ⟨e2, m2⟩ := splitFirstChar_some '\n' rest s0 rest2 h2
        obtain ⟨e3, m3⟩ := splitFirstChar_some '\n' rest2 s1 content h3
        subst hc
        refine ⟨header, s0, s1, ?_, m1, m2, m3, ?_⟩
        · rw [e1, e2, e3]
        · intro heq
          have hlen := congrArg List.length heq
          simp only [List.length_append, List.length_cons] at hlen
          omega

/-- C10 witness: the concrete block with header, blank line, fence line and a
body parses successfully, and the theorem applies to it: the stored content
body omits the blank line and the fence line and differs from the full text
after the header. -/
theorem c10_witness :
    main.clean_chunk c10Block =
      main.CleanResult.parsed (("T").toList) (("p/T.swift").toList) (("body").toList) ∧
    (∃ header s0 s1,
       c10Block = header ++ '\n' :: (s0 ++ '\n' :: (s1 ++ '\n' :: ("body").toList)) ∧
       '\n' ∉ header ∧ '\n' ∉ s0 ∧ '\n' ∉ s1 ∧
       ("body").toList ≠ s0 ++ '\n' :: (s1 ++ '\n' :: ("body").toList)) :=
  ⟨rfl,
   c10_parsed_content_drops_two_segments c10Block (("T").toList)
     (("p/T.swift").toList) (("body").toList) rfl⟩
